import Mathlib

/-!
Verification of `src/tools/scan_ble.py` (MKUltraSkelly).

The script scans for BLE devices, selects one by name or address, walks its
GATT tree into a `DeviceProfile`, and writes JSON documents to disk.  We give
a shallow embedding of the pure algorithmic parts:

* `_format_key` / `_to_jsonable` (the normalizer) over a model `PyVal` of the
  dynamically-typed Python values that can occur in attribute payloads;
* `select_device` (the device selector) over advertisement records;
* `build_profile` (the profile builder) over an enumeration outcome, together
  with the persistence step of `async_main`;
* `write_profile` / `write_scan_results` (the serializer's file write) over a
  small filesystem state, with the POSIX semantics of `open(path, "w")`
  (create or truncate) made explicit.
-/

/-- Model of the dynamically typed Python values reaching `_to_jsonable`:
strings, ints, bools, `None`, byte sequences (`bytes`/`bytearray`/
`memoryview` all behave alike there), mappings, iterables, and opaque
objects matching none of the `isinstance` tests (carried as a tag). -/
inductive PyVal where
  | str (s : String)
  | int (n : Int)
  | bool (b : Bool)
  | none
  | bytes (b : List (Fin 256))
  | dict (kvs : List (PyVal × PyVal))
  | list (xs : List PyVal)
  | obj (tag : String)
deriving Repr

/-- The sixteen lowercase hexadecimal digit characters, in value order. -/
def hexAlphabet : List Char :=
  "0123456789abcdef".data

/-- The lowercase hexadecimal digit character for a digit value. -/
def hexDigitChar (d : Nat) : Char :=
  hexAlphabet.getD d 'f'

/-- Division-by-16 digit expansion with an explicit structural fuel (any
fuel ≥ n computes the digits of n; the fuel only makes the recursion
structural so that terms reduce definitionally). -/
def natHexDigitsAux : Nat → Nat → List Char
  | _, 0 => []
  | 0, _ + 1 => []
  | fuel + 1, n + 1 =>
    natHexDigitsAux fuel ((n + 1) / 16) ++ [hexDigitChar ((n + 1) % 16)]

/-- Minimal-width lowercase hex digit list of a positive natural
(empty for 0), most significant digit first: the digits of Python's
`hex(n)` after the `0x` prefix. -/
def natHexDigits (n : Nat) : List Char :=
  natHexDigitsAux n n

/-- Digits of `hex(n)` after the sign and `0x` prefix (`"0"` for 0). -/
def natHex (n : Nat) : String :=
  if n = 0 then "0" else ⟨natHexDigits n⟩

/-- Python's `hex` builtin on an int: minimal-width lowercase digits with a
`0x` prefix, and a leading `-` for negative values (`hex(-26) = "-0x1a"`). -/
def pyHex (n : Int) : String :=
  if n < 0 then "-0x" ++ natHex n.natAbs else "0x" ++ natHex n.natAbs

/-- The two lowercase hex digits Python's `bytes.hex` emits for one byte. -/
def byteHexChars (b : Fin 256) : List Char :=
  [hexDigitChar (b.val / 16), hexDigitChar (b.val % 16)]

/-- Character list of `bytes.hex()`: two digits per byte, in byte order. -/
def bytesHexChars (bs : List (Fin 256)) : List Char :=
  bs.foldr (fun b acc => byteHexChars b ++ acc) []

/-- Python's `value.hex()` on a byte sequence: lowercase, no separators. -/
def bytesHex (bs : List (Fin 256)) : String :=
  ⟨bytesHexChars bs⟩

/-- Model of `str(key)` for the key shapes `_format_key` can meet outside the
`isinstance(key, int)` branch.  `list`/`dict` values are unhashable in Python
and can never be mapping keys, and no claim exercises `str()` of a bytes key,
so those three renderings are abstract placeholders; `str(None) = "None"` and
`str` of a string are exact. -/
def pyStrFallback : PyVal → String
  | .str s => s
  | .none => "None"
  | .obj tag => tag
  | .bytes _ => "bytes"
  | .list _ => "list"
  | .dict _ => "dict"
  | .int n => toString n
  | .bool b => if b then "True" else "False"

/-- `_format_key` from `scan_ble.py`: integer keys (Python `bool` included,
being a subclass of `int`: `hex(True) = "0x1"`) are rendered with `hex()`;
every other key is rendered with `str()`. -/
def formatKey : PyVal → String
  | .int n => pyHex n
  | .bool b => pyHex (if b then 1 else 0)
  | k => pyStrFallback k

/-- One step of building a Python dict in insertion order: an existing key
keeps its position and its value is overwritten, a new key is appended. -/
def dictUpdate (acc : List (String × PyVal)) (k : String) (v : PyVal) :
    List (String × PyVal) :=
  if acc.any (fun kv => kv.1 == k) then
    acc.map (fun kv => if kv.1 == k then (k, v) else kv)
  else
    acc ++ [(k, v)]

/-- Semantics of a Python dict comprehension over a pair list: entries are
inserted left to right, later duplicate keys overwriting earlier values. -/
def pyDictBuild (kvs : List (String × PyVal)) : List (String × PyVal) :=
  kvs.foldl (fun acc kv => dictUpdate acc kv.1 kv.2) []

mutual

/-- `_to_jsonable` from `scan_ble.py`.  Byte sequences become `value.hex()`;
a `Mapping` becomes `{_format_key(k): _to_jsonable(v) for k, v in items}`;
a non-string, non-bytes `Iterable` becomes the list of normalized elements;
everything else — scalars and unrecognized objects alike — is returned
unchanged by the final `return value`. -/
def toJsonable : PyVal → PyVal
  | .bytes b => .str (bytesHex b)
  | .dict kvs =>
    .dict ((pyDictBuild (toJsonableKVs kvs)).map (fun kv => (.str kv.1, kv.2)))
  | .list xs => .list (toJsonableList xs)
  | v => v

/-- The pair list `[(_format_key(k), _to_jsonable(v)) for k, v in items]`
feeding the dict comprehension. -/
def toJsonableKVs : List (PyVal × PyVal) → List (String × PyVal)
  | [] => []
  | (k, v) :: kvs => (formatKey k, toJsonable v) :: toJsonableKVs kvs

/-- Elementwise normalization of an iterable's members. -/
def toJsonableList : List PyVal → List PyVal
  | [] => []
  | x :: xs => toJsonable x :: toJsonableList xs

end

/-! ## Device selector (`select_device`) -/

/-- The fields of a Bleak `BLEDevice` that `select_device` reads.  `name` and
`address` are `Optional[str]` on the Python side; `none` models `None` and
`some ""` an empty string (both are falsy in the `if` conditions). -/
structure Advertisement where
  name : Option String
  address : Option String
  rssi : Option Int
deriving Repr, DecidableEq

/-- Python truthiness of an `Optional[str]`: `None` and `""` are falsy. -/
def strTruthy : Option String → Bool
  | Option.none => false
  | some s => !s.isEmpty

/-- Python's `str.lower()`: each character mapped to its lowercase form
(on the ASCII names and addresses involved this is `Char.toLower`
characterwise). -/
def pyLower (s : String) : String :=
  ⟨s.data.map Char.toLower⟩

/-- The first `if` condition of the loop body:
`target_address and device.address and device.address.lower() == target_address.lower()`. -/
def addrMatches (targetAddress : Option String) (d : Advertisement) : Bool :=
  match targetAddress, d.address with
  | some t, some a => !t.isEmpty && !a.isEmpty && (pyLower a == pyLower t)
  | _, _ => false

/-- The second `if` condition of the loop body:
`target_name and device.name and device.name.lower() == target_name.lower()`. -/
def nameMatches (targetName : Option String) (d : Advertisement) : Bool :=
  match targetName, d.name with
  | some t, some n => !t.isEmpty && !n.isEmpty && (pyLower n == pyLower t)
  | _, _ => false

/-- `select_device` from `scan_ble.py`: iterate the scanned devices in order;
for each device first try the address condition, then the name condition;
return the first hit, or `None` after exhausting the sequence. -/
def select_device (devices : List Advertisement)
    (targetName targetAddress : Option String) : Option Advertisement :=
  match devices with
  | [] => Option.none
  | d :: rest =>
    if addrMatches targetAddress d then some d
    else if nameMatches targetName d then some d
    else select_device rest targetName targetAddress

/-! ## Serializer file write (`write_profile` / `write_scan_results`)

Both writers run `output_path.parent.mkdir(parents=True, exist_ok=True)`,
then `output_path.open("w", ...)` and `json.dump(..., fh, ...)`.  We model
the filesystem state visible at one target path, with POSIX `open(…, "w")`
semantics: the file is created or truncated to empty the moment it is
opened, and `json.dump` then streams the rendered document into it, so an
interruption after `k` characters leaves exactly that prefix on disk. -/

/-- Filesystem state at the write target: whether the parent directory
exists, and the target file's contents (`none` = file absent). -/
structure FS where
  parentExists : Bool
  target : Option String
deriving Repr, DecidableEq

/-- `Path.mkdir(parents=True, exist_ok=True)` on the parent directory. -/
def mkdirParents (fs : FS) : FS :=
  { fs with parentExists := true }

/-- How far the streaming `json.dump` got before the process stopped:
`none` means it ran to completion, `some k` that it was interrupted after
`k` characters of the rendered document had been written. -/
def WriteOutcome := Option Nat

/-- `write_profile` (and identically the write in `write_scan_results`):
make the parent directory, open the target with mode `"w"` (truncating any
previous contents), stream the rendered document.  Returns the resulting
filesystem state and whether the write completed. -/
def write_profile (fs : FS) (doc : String) (outcome : Option Nat) :
    FS × Bool :=
  let fs1 := mkdirParents fs
  let fs2 := { fs1 with target := some "" }
  match outcome with
  | Option.none => ({ fs2 with target := some doc }, true)
  | some k => ({ fs2 with target := some (⟨doc.data.take k⟩ : String) }, false)

/-! ## Profile builder (`build_profile`) and the `async_main` persistence -/

/-- `DescriptorProfile` dataclass. -/
structure DescriptorProfile where
  uuid : String
  handle : Option Int
  description : Option String
deriving Repr, DecidableEq

/-- `CharacteristicProfile` dataclass. -/
structure CharacteristicProfile where
  uuid : String
  handle : Option Int
  description : Option String
  properties : List String
  descriptors : List DescriptorProfile
deriving Repr, DecidableEq

/-- `ServiceProfile` dataclass. -/
structure ServiceProfile where
  uuid : String
  handle : Option Int
  description : Option String
  characteristics : List CharacteristicProfile
deriving Repr, DecidableEq

/-- `DeviceInfo` dataclass (the `manufacturer_data`/`metadata` mappings are
already normalized by `_extract_device_info`). -/
structure DeviceInfo where
  name : Option String
  address : Option String
  rssi : Option Int
  manufacturer_data : PyVal
  metadata : PyVal
  bleak_version : String
deriving Repr

/-- `DeviceProfile` dataclass. -/
structure DeviceProfile where
  device : DeviceInfo
  services : List ServiceProfile
deriving Repr

/-- A descriptor as Bleak's enumeration reports it. -/
structure RawDescriptor where
  uuid : String
  handle : Option Int
  description : Option String
deriving Repr, DecidableEq

/-- A characteristic as Bleak's enumeration reports it; `properties` is the
capability tag collection in the order Bleak yields it. -/
structure RawCharacteristic where
  uuid : String
  handle : Option Int
  description : Option String
  properties : List String
  descriptors : List RawDescriptor
deriving Repr, DecidableEq

/-- A service as Bleak's enumeration reports it. -/
structure RawService where
  uuid : String
  handle : Option Int
  description : Option String
  characteristics : List RawCharacteristic
deriving Repr, DecidableEq

/-- Python's `sorted` on a list of strings: lexicographic by code point,
which is `String`'s linear order. -/
def sortedStrings (l : List String) : List String :=
  List.insertionSort (· ≤ ·) l

/-- The descriptor loop body of `build_profile`. -/
def buildDescriptor (d : RawDescriptor) : DescriptorProfile :=
  ⟨d.uuid, d.handle, d.description⟩

/-- The characteristic loop body of `build_profile`:
`properties=sorted(list(characteristic.properties))`, and descriptors
appended in the order the peripheral returned them. -/
def buildCharacteristic (c : RawCharacteristic) : CharacteristicProfile :=
  ⟨c.uuid, c.handle, c.description, sortedStrings c.properties,
    c.descriptors.map buildDescriptor⟩

/-- The service loop body of `build_profile`: characteristics appended in
the order the peripheral returned them. -/
def buildService (s : RawService) : ServiceProfile :=
  ⟨s.uuid, s.handle, s.description, s.characteristics.map buildCharacteristic⟩

/-- Outcome of the connect-and-enumerate attempt inside the
`async with BleakClient(device)` block: either the full service list is
obtained and walked, or the peripheral drops the connection (a `BleakError`)
after yielding only a prefix of its services. -/
inductive EnumOutcome where
  | ok (services : List RawService)
  | dropped (prefixServices : List RawService)
deriving Repr

/-- The failure `build_profile` surfaces (it raises `SystemExit` from the
`except BleakError` handler, abandoning the locally built partial profile). -/
inductive ProfileError where
  | enumerationFailed
deriving Repr, DecidableEq

/-- `build_profile` from `scan_ble.py`: on a successful enumeration, the
profile holds the device snapshot and the walked service tree in enumeration
order; a `BleakError` mid-enumeration escapes the `async with` block, the
local `profile` variable (with whatever services were appended so far) is
discarded, and `SystemExit` is raised instead. -/
def build_profile (info : DeviceInfo) (outcome : EnumOutcome) :
    Except ProfileError DeviceProfile :=
  match outcome with
  | .ok services => .ok ⟨info, services.map buildService⟩
  | .dropped _ => .error .enumerationFailed

/-- The profiling tail of `async_main`: `write_profile(profile, path)` runs
only after `build_profile` returned normally; a `SystemExit` from
`build_profile` propagates first, so the filesystem is untouched.  The JSON
rendering of the profile is abstracted as a parameter `render`; the claims
about this phase do not depend on the rendered text.  Returns the resulting
filesystem state and whether a profile was persisted. -/
def profilePhase (fs : FS) (render : DeviceProfile → String)
    (info : DeviceInfo) (outcome : EnumOutcome) : FS × Bool :=
  match build_profile info outcome with
  | .error _ => (fs, false)
  | .ok profile => ((write_profile fs (render profile) Option.none).1, true)

/-! ## Observation helpers used by the theorem statements -/

/-- Whether a character is one of the sixteen lowercase hex digits. -/
def isLowerHex (c : Char) : Bool :=
  ("0123456789abcdef".data).contains c

/-- The entry list of a normalized mapping value (empty for non-mappings). -/
def pyDictPairs : PyVal → List (PyVal × PyVal)
  | .dict kvs => kvs
  | _ => []

/-- The scalar shapes of the data model: strings, numbers, booleans,
null/absence. -/
def isScalar : PyVal → Bool
  | .str _ => true
  | .int _ => true
  | .bool _ => true
  | .none => true
  | _ => false

/-- `n` singleton lists nested around a value, to probe recursion depth. -/
def nestedList : Nat → PyVal → PyVal
  | 0, v => v
  | n + 1, v => .list [nestedList n v]

/-! ## Helper lemmas -/

theorem getD_all_of_all {l : List Char} {c : Char} (p : Char → Bool)
    (hl : l.all p = true) (hc : p c = true) (d : Nat) :
    p (l.getD d c) = true := by
  induction l generalizing d with
  | nil => simpa [List.getD] using hc
  | cons a l ih =>
    simp only [List.all_cons, Bool.and_eq_true] at hl
    cases d with
    | zero => simpa [List.getD] using hl.1
    | succ d => simpa [List.getD] using ih hl.2 d

theorem hexDigitChar_isLowerHex (d : Nat) : isLowerHex (hexDigitChar d) = true :=
  getD_all_of_all isLowerHex (by decide) (by decide) d

theorem natHexDigitsAux_all (fuel n : Nat) :
    (natHexDigitsAux fuel n).all isLowerHex = true := by
  induction fuel generalizing n with
  | zero => cases n <;> simp [natHexDigitsAux]
  | succ fuel ih =>
    cases n with
    | zero => simp [natHexDigitsAux]
    | succ m =>
      simp only [natHexDigitsAux, List.all_append, ih, List.all_cons,
        List.all_nil, hexDigitChar_isLowerHex, Bool.and_self, Bool.true_and,
        Bool.and_true]

theorem natHex_all (n : Nat) : (natHex n).data.all isLowerHex = true := by
  unfold natHex
  split
  · decide
  · exact natHexDigitsAux_all n n

theorem bytesHexChars_cons (b : Fin 256) (bs : List (Fin 256)) :
    bytesHexChars (b :: bs) = byteHexChars b ++ bytesHexChars bs := rfl

theorem bytesHexChars_length (bs : List (Fin 256)) :
    (bytesHexChars bs).length = 2 * bs.length := by
  induction bs with
  | nil => rfl
  | cons b bs ih =>
    simp only [bytesHexChars_cons, byteHexChars, List.length_append,
      List.length_cons, List.length_nil, ih]
    omega

theorem bytesHexChars_all (bs : List (Fin 256)) :
    (bytesHexChars bs).all isLowerHex = true := by
  induction bs with
  | nil => rfl
  | cons b bs ih =>
    simp only [bytesHexChars_cons, byteHexChars, List.all_append, ih,
      List.all_cons, List.all_nil, hexDigitChar_isLowerHex, Bool.and_self,
      Bool.true_and, Bool.and_true]

theorem toJsonableKVs_eq_map (kvs : List (PyVal × PyVal)) :
    toJsonableKVs kvs = kvs.map (fun kv => (formatKey kv.1, toJsonable kv.2)) := by
  induction kvs with
  | nil => rfl
  | cons kv kvs ih => cases kv; simp [toJsonableKVs, ih]

theorem toJsonableList_eq_map (xs : List PyVal) :
    toJsonableList xs = xs.map toJsonable := by
  induction xs with
  | nil => rfl
  | cons x xs ih => simp [toJsonableList, ih]

theorem dictUpdate_mem {kv : String × PyVal} {acc : List (String × PyVal)}
    {k : String} {v : PyVal} (h : kv ∈ dictUpdate acc k v) :
    kv ∈ acc ∨ kv = (k, v) := by
  unfold dictUpdate at h
  split at h
  · rcases List.mem_map.mp h with ⟨kv', hkv', heq⟩
    by_cases hk : kv'.1 == k
    · right; rw [if_pos hk] at heq; exact heq.symm
    · left; rw [if_neg hk] at heq; exact heq ▸ hkv'
  · rcases List.mem_append.mp h with h' | h'
    · exact Or.inl h'
    · exact Or.inr (List.mem_singleton.mp h')

theorem foldl_dictUpdate_mem {kv : String × PyVal} :
    ∀ (l acc : List (String × PyVal)),
      kv ∈ l.foldl (fun acc kv => dictUpdate acc kv.1 kv.2) acc →
      kv ∈ acc ∨ kv ∈ l := by
  intro l
  induction l with
  | nil => intro acc h; exact Or.inl h
  | cons p l ih =>
    intro acc h
    rcases ih (dictUpdate acc p.1 p.2) h with h' | h'
    · rcases dictUpdate_mem h' with h'' | h''
      · exact Or.inl h''
      · refine Or.inr ?_
        rw [h'']
        simp
    · exact Or.inr (List.mem_cons_of_mem p h')

theorem pyDictBuild_mem {kv : String × PyVal} {l : List (String × PyVal)}
    (h : kv ∈ pyDictBuild l) : kv ∈ l := by
  rcases foldl_dictUpdate_mem l [] h with h' | h'
  · cases h'
  · exact h'

theorem dictUpdate_of_not_mem {acc : List (String × PyVal)} {k : String}
    {v : PyVal} (h : ∀ kv ∈ acc, kv.1 ≠ k) :
    dictUpdate acc k v = acc ++ [(k, v)] := by
  unfold dictUpdate
  have : acc.any (fun kv => kv.1 == k) = false := by
    rw [List.any_eq_false]
    intro kv hkv
    simpa using h kv hkv
  simp [this]

theorem foldl_dictUpdate_nodup :
    ∀ (l acc : List (String × PyVal)),
      ((acc ++ l).map Prod.fst).Nodup →
      l.foldl (fun acc kv => dictUpdate acc kv.1 kv.2) acc = acc ++ l := by
  intro l
  induction l with
  | nil => intro acc _; simp
  | cons p l ih =>
    intro acc hnd
    have hstep : dictUpdate acc p.1 p.2 = acc ++ [p] := by
      have hne : ∀ kv ∈ acc, kv.1 ≠ p.1 := by
        intro kv hkv heq
        have h1 : kv.1 ∈ acc.map Prod.fst := List.mem_map_of_mem Prod.fst hkv
        have hnd' : ((acc.map Prod.fst) ++ (p.1 :: l.map Prod.fst)).Nodup := by
          simpa using hnd
        exact (List.nodup_append.mp hnd').2.2 h1
          (by rw [heq]; exact List.mem_cons_self _ _)
      simpa using dictUpdate_of_not_mem hne
    simp only [List.foldl_cons, hstep]
    have : ((acc ++ [p]) ++ l).map Prod.fst = (acc ++ p :: l).map Prod.fst := by
      simp
    rw [ih (acc ++ [p]) (by rw [this]; exact hnd)]
    simp

theorem pyDictBuild_nodup {l : List (String × PyVal)}
    (h : (l.map Prod.fst).Nodup) : pyDictBuild l = l := by
  simpa using foldl_dictUpdate_nodup l [] (by simpa using h)

theorem addrMatches_noTarget (d : Advertisement) :
    addrMatches Option.none d = false := by
  unfold addrMatches
  cases d.address <;> rfl

theorem nameMatches_noTarget (d : Advertisement) :
    nameMatches Option.none d = false := by
  unfold nameMatches
  cases d.name <;> rfl

theorem nameMatches_name_truthy {tn : Option String} {d : Advertisement}
    (h : nameMatches tn d = true) : strTruthy d.name = true := by
  unfold nameMatches at h
  cases tn with
  | none => cases d.name <;> cases h
  | some t =>
    cases hd : d.name with
    | none => rw [hd] at h; cases h
    | some n =>
      rw [hd] at h
      simp only [Bool.and_eq_true] at h
      simpa [strTruthy] using h.1.2

theorem addrMatches_addr_truthy {ta : Option String} {d : Advertisement}
    (h : addrMatches ta d = true) : strTruthy d.address = true := by
  unfold addrMatches at h
  cases ta with
  | none => cases d.address <;> cases h
  | some t =>
    cases hd : d.address with
    | none => rw [hd] at h; cases h
    | some a =>
      rw [hd] at h
      simp only [Bool.and_eq_true] at h
      simpa [strTruthy] using h.1.2

theorem select_device_eq_find (devices : List Advertisement)
    (tn : Option String) :
    select_device devices tn Option.none =
      devices.find? (fun d => nameMatches tn d) := by
  induction devices with
  | nil => rfl
  | cons d rest ih =>
    simp only [select_device, addrMatches_noTarget, if_false, Bool.false_eq_true]
    by_cases h : nameMatches tn d
    · simp [h, List.find?]
    · simp only [Bool.not_eq_true] at h
      simp [h, List.find?, ih]

theorem forall2_of_map {α β : Type} (f : α → β) (R : β → α → Prop)
    (l : List α) (h : ∀ a ∈ l, R (f a) a) : List.Forall₂ R (l.map f) l := by
  induction l with
  | nil => exact List.Forall₂.nil
  | cons a l ih =>
    exact List.Forall₂.cons (h a (by simp))
      (ih (fun x hx => h x (by simp [hx])))

/-! ## The claims -/

/-- Claim C1 (code bug): the spec (and the script's own `--mac-address` help
text, "Overrides the device name if provided") says that when a target
address is supplied only address equality is considered and the name is
ignored.  The loop instead tests address-then-name per device, so at this
input — where the supplied address matches the second device — the first
device is returned because its name matches, even though only the second
device satisfies the address predicate. -/
theorem select_device_name_beats_address :
    select_device
        [⟨some "skelly", some "11:22:33:44:55:66", Option.none⟩,
          ⟨some "other", some "AA:BB:CC:DD:EE:FF", Option.none⟩]
        (some "Skelly") (some "aa:bb:cc:dd:ee:ff") =
      some ⟨some "skelly", some "11:22:33:44:55:66", Option.none⟩ ∧
    addrMatches (some "aa:bb:cc:dd:ee:ff")
        ⟨some "other", some "AA:BB:CC:DD:EE:FF", Option.none⟩ = true ∧
    addrMatches (some "aa:bb:cc:dd:ee:ff")
        ⟨some "skelly", some "11:22:33:44:55:66", Option.none⟩ = false :=
  ⟨rfl, rfl, rfl⟩

/-- Claim C4: a connection dropped mid-enumeration (`BleakError` after a
prefix of the services was yielded) makes `build_profile` surface the
enumeration failure; the partially built profile is discarded and the
profiling phase of `async_main` leaves the filesystem untouched — no
partial profile document is persisted, whatever the renderer. -/
theorem build_profile_all_or_nothing (fs : FS)
    (render : DeviceProfile → String) (info : DeviceInfo)
    (prefixSvcs : List RawService) :
    build_profile info (.dropped prefixSvcs) =
      .error .enumerationFailed ∧
    profilePhase fs render info (.dropped prefixSvcs) = (fs, false) :=
  ⟨rfl, rfl⟩

/-- Claim C5: normalizing a byte sequence yields its lowercase hexadecimal
rendering — two hex digits per byte (so the length is even), no separators,
every character a lowercase hex digit — and `normalize(bytes([0xDE, 0xAD]))`
is `"dead"`. -/
theorem toJsonable_bytes_hex (bs : List (Fin 256)) :
    toJsonable (.bytes bs) = .str (bytesHex bs) ∧
    (bytesHex bs).length = 2 * bs.length ∧
    (bytesHex bs).data.all isLowerHex = true ∧
    toJsonable (.bytes [(0xDE : Fin 256), (0xAD : Fin 256)]) = .str "dead" :=
  ⟨rfl, bytesHexChars_length bs, bytesHexChars_all bs, rfl⟩

/-- Claim C9: with only a target name supplied, `select_device` returns the
first device (in scan order) whose name matches case-insensitively — the
loop is exactly `List.find?` of the name predicate — it returns `None` when
no device matches, and `"Skelly"` matches a device named `"skelly"`. -/
theorem select_device_name_only (devices : List Advertisement) (tn : String) :
    select_device devices (some tn) Option.none =
      devices.find? (fun d => nameMatches (some tn) d) ∧
    ((∀ d ∈ devices, nameMatches (some tn) d = false) →
      select_device devices (some tn) Option.none = Option.none) ∧
    select_device [⟨some "skelly", some "AA:BB:CC:DD:EE:FF", Option.none⟩]
        (some "Skelly") Option.none =
      some ⟨some "skelly", some "AA:BB:CC:DD:EE:FF", Option.none⟩ := by
  refine ⟨select_device_eq_find devices (some tn), ?_, rfl⟩
  intro h
  rw [select_device_eq_find]
  exact List.find?_eq_none.mpr (fun d hd => by simp [h d hd])

/-- Witness for C9 at a concrete input: a scan with one non-matching device
yields `None`. -/
theorem select_device_name_only_witness :
    select_device [⟨some "other", Option.none, Option.none⟩]
      (some "skelly") Option.none = Option.none :=
  (select_device_name_only [⟨some "other", Option.none, Option.none⟩]
    "skelly").2.1 (by decide)

/-- Claim C10: with neither target supplied `select_device` returns `None`;
a device without a name is never returned when only a name target is
supplied, and a device without an address is never returned when only an
address target is supplied (absent identity fields never satisfy the
selection predicate). -/
theorem select_device_absent_fields (devices : List Advertisement)
    (tn ta : Option String) (d : Advertisement) :
    select_device devices Option.none Option.none = Option.none ∧
    (select_device devices tn Option.none = some d →
      strTruthy d.name = true) ∧
    (select_device devices Option.none ta = some d →
      strTruthy d.address = true) := by
  refine ⟨?_, ?_, ?_⟩
  · induction devices with
    | nil => rfl
    | cons a rest ih =>
      simp [select_device, addrMatches_noTarget, nameMatches_noTarget, ih]
  · intro h
    induction devices with
    | nil => cases h
    | cons a rest ih =>
      simp only [select_device, addrMatches_noTarget, if_false,
        Bool.false_eq_true] at h
      by_cases hm : nameMatches tn a
      · rw [if_pos hm] at h
        cases h
        exact nameMatches_name_truthy hm
      · rw [if_neg hm] at h
        exact ih h
  · intro h
    induction devices with
    | nil => cases h
    | cons a rest ih =>
      simp only [select_device, nameMatches_noTarget, if_false,
        Bool.false_eq_true] at h
      by_cases hm : addrMatches ta a
      · rw [if_pos hm] at h
        cases h
        exact addrMatches_addr_truthy hm
      · rw [if_neg hm] at h
        exact ih h

/-- Witness for C10 at a concrete input: a matching device is returned and
its identity fields are indeed present and non-empty. -/
theorem select_device_absent_fields_witness :
    select_device [⟨some "skelly", some "AA:BB", Option.none⟩]
        Option.none Option.none = Option.none ∧
    strTruthy (⟨some "skelly", some "AA:BB", Option.none⟩ :
        Advertisement).name = true ∧
    strTruthy (⟨some "skelly", some "AA:BB", Option.none⟩ :
        Advertisement).address = true := by
  refine ⟨?_, ?_, ?_⟩
  · exact (select_device_absent_fields
      [⟨some "skelly", some "AA:BB", Option.none⟩] Option.none Option.none
      ⟨some "skelly", some "AA:BB", Option.none⟩).1
  · exact (select_device_absent_fields
      [⟨some "skelly", some "AA:BB", Option.none⟩] (some "skelly") Option.none
      ⟨some "skelly", some "AA:BB", Option.none⟩).2.1 rfl
  · exact (select_device_absent_fields
      [⟨some "skelly", some "AA:BB", Option.none⟩] Option.none (some "aa:bb")
      ⟨some "skelly", some "AA:BB", Option.none⟩).2.2 rfl

/-- Claim C2 (counterexample): the claim says the write either fully
succeeds or leaves the previous contents untouched.  Starting from a target
file holding `"old"`, writing `"newdoc"` with an interruption after one
character leaves the file holding `"n"` — neither the previous contents nor
the new document: `open(path, "w")` truncates immediately and `json.dump`
streams into the open handle, so the write is not atomic. -/
theorem write_profile_not_atomic :
    (write_profile ⟨true, some "old"⟩ "newdoc" (some 1)).2 = false ∧
    (write_profile ⟨true, some "old"⟩ "newdoc" (some 1)).1.target = some "n" ∧
    (some "n" : Option String) ≠ some "old" ∧
    (some "n" : Option String) ≠ some "newdoc" :=
  ⟨rfl, rfl, by decide, by decide⟩

/-- Claim C2 as amended: the parent directory is created if absent, and a
completed write leaves exactly the rendered document; but the write is not
atomic — the target is truncated at open, and an interruption after `k`
characters leaves exactly that prefix of the new document on disk (the
previous contents are always lost once the write starts). -/
theorem write_profile_behaviour (fs : FS) (doc : String)
    (outcome : Option Nat) :
    (write_profile fs doc outcome).1.parentExists = true ∧
    (outcome = Option.none →
      (write_profile fs doc outcome).1.target = some doc ∧
      (write_profile fs doc outcome).2 = true) ∧
    (∀ k, outcome = some k →
      (write_profile fs doc outcome).1.target =
        some (⟨doc.data.take k⟩ : String) ∧
      (write_profile fs doc outcome).2 = false) := by
  cases outcome with
  | none => exact ⟨rfl, fun _ => ⟨rfl, rfl⟩, fun k hk => by cases hk⟩
  | some k =>
    refine ⟨rfl, ?_, ?_⟩
    · intro h
      cases h
    · intro k' hk
      injection hk with h
      subst h
      exact ⟨rfl, rfl⟩

/-- Witness for the amended C2 at a concrete input: a completed write stores
the document, an interrupted one a strict prefix, and the parent directory
exists afterwards either way. -/
theorem write_profile_behaviour_witness :
    (write_profile ⟨false, Option.none⟩ "ab" Option.none).1.parentExists =
      true ∧
    (write_profile ⟨false, Option.none⟩ "ab" Option.none).1.target =
      some "ab" ∧
    (write_profile ⟨false, Option.none⟩ "ab" (some 1)).1.target = some "a" := by
  refine ⟨(write_profile_behaviour ⟨false, Option.none⟩ "ab" Option.none).1,
    ((write_profile_behaviour ⟨false, Option.none⟩ "ab" Option.none).2.1
      rfl).1, ?_⟩
  have h := ((write_profile_behaviour ⟨false, Option.none⟩ "ab"
    (some 1)).2.2 1 rfl).1
  exact h

/-- Claim C3 (counterexample): the claim says values outside the recognized
shapes are rejected with `MalformedPayload`, and that recursion past a depth
ceiling of about 32 fails closed.  `_to_jsonable` does neither: an opaque
object is returned unchanged by the final `return value`, and a list nested
33 deep is normalized without any depth guard. -/
theorem toJsonable_no_fail_closed :
    toJsonable (.obj "weakref") = .obj "weakref" ∧
    toJsonable (nestedList 33 (.int 7)) = nestedList 33 (.int 7) :=
  ⟨rfl, rfl⟩

/-- Claim C3 as amended: `_to_jsonable` is total and never fails: scalars
and any value outside the recognized shapes pass through unchanged, and
recursion is bounded only by the height of the (tree-shaped) payload — there
is no depth ceiling and no `MalformedPayload` error path at any depth. -/
theorem toJsonable_total (tag : String) (n : Nat) (v : PyVal) :
    toJsonable (.obj tag) = .obj tag ∧
    (isScalar v = true → toJsonable v = v) ∧
    toJsonable (nestedList n (.obj tag)) = nestedList n (.obj tag) := by
  refine ⟨rfl, ?_, ?_⟩
  · intro h
    cases v <;> first | rfl | exact absurd h (by simp [isScalar])
  · induction n with
    | zero => rfl
    | succ n ih => simp [nestedList, toJsonable, toJsonableList, ih]

/-- Witness for the amended C3 at a concrete input: an opaque object, a
scalar, and a 40-deep nesting all pass through unchanged. -/
theorem toJsonable_total_witness :
    toJsonable (.obj "x") = .obj "x" ∧
    toJsonable (.int 3) = .int 3 ∧
    toJsonable (nestedList 40 (.obj "x")) = nestedList 40 (.obj "x") :=
  ⟨(toJsonable_total "x" 40 (.int 3)).1,
    (toJsonable_total "x" 40 (.int 3)).2.1 rfl,
    (toJsonable_total "x" 40 (.int 3)).2.2⟩

/-- Claim C6 (counterexample): the claim says every non-string key is
rendered as a fixed-width hexadecimal string with a `0x` prefix.  A `None`
key is non-string yet is rendered by `str()` as `"None"` — no `0x` prefix —
and integer keys are rendered by `hex()` at minimal width, so `1` and `255`
produce renderings of different lengths: not fixed-width. -/
theorem formatKey_not_fixed_width_hex :
    toJsonable (.dict [(.none, .bool true)]) =
      .dict [(.str "None", .bool true)] ∧
    formatKey .none = "None" ∧
    "None".data.take 2 ≠ "0x".data ∧
    formatKey (.int 1) = "0x1" ∧
    formatKey (.int 255) = "0xff" ∧
    ("0x1" : String).length ≠ ("0xff" : String).length :=
  ⟨rfl, rfl, by decide, rfl, rfl, by decide⟩

/-- Claim C6 as amended: normalizing a mapping yields a mapping whose every
entry has a string key and comes from a source entry with its key formatted
and its value recursively normalized; integer keys (Python booleans
included) are rendered by `hex()` — a `0x` prefix followed by
minimal-width, lowercase hexadecimal digits — string keys pass through
unchanged, and other non-string keys are rendered by `str()`. -/
theorem toJsonable_mapping_keys (kvs : List (PyVal × PyVal)) (n m : Nat)
    (s : String) :
    (∀ kv ∈ pyDictPairs (toJsonable (.dict kvs)),
      ∃ k0 v0, (k0, v0) ∈ kvs ∧ kv = (.str (formatKey k0), toJsonable v0)) ∧
    formatKey (.int (Int.ofNat n)) = "0x" ++ natHex n ∧
    (natHex m).data.all isLowerHex = true ∧
    formatKey (.str s) = s ∧
    formatKey (.bool true) = "0x1" ∧
    formatKey .none = "None" := by
  refine ⟨?_, ?_, natHex_all m, rfl, rfl, rfl⟩
  · intro kv hkv
    have hkv' : kv ∈ (pyDictBuild (toJsonableKVs kvs)).map
        (fun kv => ((PyVal.str kv.1 : PyVal), kv.2)) := by
      simpa [pyDictPairs, toJsonable] using hkv
    rcases List.mem_map.mp hkv' with ⟨kv', hkv'', heq⟩
    have hmem : kv' ∈ toJsonableKVs kvs := pyDictBuild_mem hkv''
    rw [toJsonableKVs_eq_map] at hmem
    rcases List.mem_map.mp hmem with ⟨⟨k0, v0⟩, hk0, hk0eq⟩
    exact ⟨k0, v0, hk0, by rw [← heq, ← hk0eq]⟩
  · show pyHex (Int.ofNat n) = "0x" ++ natHex n
    unfold pyHex
    split
    · exact absurd ‹Int.ofNat n < 0› (Int.not_lt.mpr (Int.ofNat_nonneg n))
    · rfl

/-- Witness for the amended C6 at a concrete input: the single entry of a
normalized mapping with integer key 26 comes from that source entry, with
the key rendered `"0x1a"` and the value normalized. -/
theorem toJsonable_mapping_keys_witness :
    (∃ k0 v0,
      (k0, v0) ∈ ([(.int 26, .bytes [(255 : Fin 256)])] :
        List (PyVal × PyVal)) ∧
      ((PyVal.str "0x1a" : PyVal), (PyVal.str "ff" : PyVal)) =
        (.str (formatKey k0), toJsonable v0)) ∧
    formatKey (.int (Int.ofNat 5)) = "0x" ++ natHex 5 := by
  refine ⟨?_, (toJsonable_mapping_keys [] 5 5 "k").2.1⟩
  refine (toJsonable_mapping_keys [(.int 26, .bytes [(255 : Fin 256)])]
    5 5 "k").1 (.str "0x1a", .str "ff") ?_
  rw [show pyDictPairs
      (toJsonable (.dict [(.int 26, .bytes [(255 : Fin 256)])])) =
      [((PyVal.str "0x1a" : PyVal), (PyVal.str "ff" : PyVal))] from rfl]
  exact List.mem_singleton_self _

/-- Claim C7 (counterexample): the claim says normalizing a mapping drops no
key.  The string key `"0x1"` and the integer key `1` both format to
`"0x1"`, so the two-entry mapping `{"0x1": "a", 1: "b"}` normalizes to a
single-entry mapping: the first entry's value is overwritten. -/
theorem toJsonable_mapping_key_collision :
    toJsonable (.dict [(.str "0x1", .str "a"), (.int 1, .str "b")]) =
      .dict [(.str "0x1", .str "b")] ∧
    (pyDictPairs (toJsonable
      (.dict [(.str "0x1", .str "a"), (.int 1, .str "b")]))).length = 1 ∧
    ([(.str "0x1", .str "a"), (.int 1, .str "b")] :
      List (PyVal × PyVal)).length = 2 :=
  ⟨rfl, rfl, rfl⟩

/-- Claim C7 as amended: normalizing a scalar is the identity, and a nested
mapping whose keys format to pairwise distinct strings (in particular any
mapping with distinct string keys) keeps every entry in order, with the key
formatted and the value recursively normalized; only when two keys format
to the same string is the earlier entry overwritten. -/
theorem toJsonable_scalar_id_and_mapping (v : PyVal)
    (kvs : List (PyVal × PyVal)) :
    (isScalar v = true → toJsonable v = v) ∧
    ((kvs.map (fun kv => formatKey kv.1)).Nodup →
      pyDictPairs (toJsonable (.dict kvs)) =
        kvs.map (fun kv => ((PyVal.str (formatKey kv.1) : PyVal),
          toJsonable kv.2))) := by
  refine ⟨?_, ?_⟩
  · intro h
    cases v <;> first | rfl | exact absurd h (by simp [isScalar])
  · intro hnd
    have h1 : pyDictPairs (toJsonable (.dict kvs)) =
        (pyDictBuild (toJsonableKVs kvs)).map
          (fun kv => ((PyVal.str kv.1 : PyVal), kv.2)) := rfl
    have h2 : ((toJsonableKVs kvs).map Prod.fst).Nodup := by
      rw [toJsonableKVs_eq_map, List.map_map]
      exact hnd
    rw [h1, pyDictBuild_nodup h2, toJsonableKVs_eq_map, List.map_map]
    rfl

/-- Witness for the amended C7 at a concrete input: a scalar passes through
unchanged and a two-entry mapping with distinct string keys keeps both
entries, values normalized. -/
theorem toJsonable_scalar_id_and_mapping_witness :
    toJsonable (.bool true) = .bool true ∧
    pyDictPairs (toJsonable (.dict
        [(.str "k", .bytes [(255 : Fin 256)]), (.str "l", .int 2)])) =
      [((PyVal.str "k" : PyVal), (PyVal.str "ff" : PyVal)),
        ((PyVal.str "l" : PyVal), (PyVal.int 2 : PyVal))] := by
  refine ⟨(toJsonable_scalar_id_and_mapping (.bool true) []).1 rfl, ?_⟩
  have h := (toJsonable_scalar_id_and_mapping (.bool true)
    [(.str "k", .bytes [(255 : Fin 256)]), (.str "l", .int 2)]).2
    (by decide)
  rw [h]
  rfl

/-- Claim C8: the constructed profile keeps services, characteristics and
descriptors in exactly the enumeration order (pointwise identical identity
fields, never re-sorted), except that each characteristic's property
collection is stored lexicographically sorted (a sorted permutation of the
enumerated properties). -/
theorem build_profile_order (info : DeviceInfo)
    (services : List RawService) (p : DeviceProfile)
    (h : build_profile info (.ok services) = .ok p) :
    List.Forall₂ (fun (sp : ServiceProfile) (s : RawService) =>
      sp.uuid = s.uuid ∧ sp.handle = s.handle ∧
      sp.description = s.description ∧
      List.Forall₂ (fun (cp : CharacteristicProfile)
          (c : RawCharacteristic) =>
        cp.uuid = c.uuid ∧ cp.handle = c.handle ∧
        cp.description = c.description ∧
        List.Sorted (· ≤ ·) cp.properties ∧
        cp.properties.Perm c.properties ∧
        List.Forall₂ (fun (dp : DescriptorProfile) (dr : RawDescriptor) =>
          dp.uuid = dr.uuid ∧ dp.handle = dr.handle ∧
          dp.description = dr.description)
          cp.descriptors c.descriptors)
        sp.characteristics s.characteristics)
      p.services services := by
  have hp : p = ⟨info, services.map buildService⟩ := by
    cases h
    rfl
  subst hp
  apply forall2_of_map
  intro s _
  refine ⟨rfl, rfl, rfl, ?_⟩
  apply forall2_of_map
  intro c _
  refine ⟨rfl, rfl, rfl, ?_, ?_, ?_⟩
  · exact List.sorted_insertionSort _ _
  · exact List.perm_insertionSort _ _
  · apply forall2_of_map
    intro dr _
    exact ⟨rfl, rfl, rfl⟩

/-- Witness for C8 at a concrete input: one service with one characteristic
whose properties `["read", "notify"]` come out sorted as
`["notify", "read"]` while everything else keeps enumeration order. -/
theorem build_profile_order_witness :
    List.Forall₂ (fun (sp : ServiceProfile) (s : RawService) =>
      sp.uuid = s.uuid ∧ sp.handle = s.handle ∧
      sp.description = s.description ∧
      List.Forall₂ (fun (cp : CharacteristicProfile)
          (c : RawCharacteristic) =>
        cp.uuid = c.uuid ∧ cp.handle = c.handle ∧
        cp.description = c.description ∧
        List.Sorted (· ≤ ·) cp.properties ∧
        cp.properties.Perm c.properties ∧
        List.Forall₂ (fun (dp : DescriptorProfile) (dr : RawDescriptor) =>
          dp.uuid = dr.uuid ∧ dp.handle = dr.handle ∧
          dp.description = dr.description)
          cp.descriptors c.descriptors)
        sp.characteristics s.characteristics)
      (DeviceProfile.mk
        ⟨Option.none, some "AA:BB:CC:DD:EE:FF", Option.none, .none, .none,
          "0.22.3"⟩
        ([⟨"180A", some 1, Option.none,
            [⟨"2A19", some 2, Option.none, ["read", "notify"],
              [⟨"2902", some 3, Option.none⟩]⟩]⟩].map buildService)).services
      [⟨"180A", some 1, Option.none,
        [⟨"2A19", some 2, Option.none, ["read", "notify"],
          [⟨"2902", some 3, Option.none⟩]⟩]⟩] :=
  build_profile_order
    ⟨Option.none, some "AA:BB:CC:DD:EE:FF", Option.none, .none, .none,
      "0.22.3"⟩
    [⟨"180A", some 1, Option.none,
      [⟨"2A19", some 2, Option.none, ["read", "notify"],
        [⟨"2902", some 3, Option.none⟩]⟩]⟩]
    _ rfl
